import Mathlib

set_option maxHeartbeats 1000000

/-!
Shallow embedding of the watch/list cacher
(staging/src/k8s.io/apiserver/pkg/storage/cacher/cacher.go).

External collaborators (the backing store, the readiness gate internals, the
watch-cache internals, per-watcher channels, the clock) are abstracted as
explicit inputs carried in environment records; the control flow of the
cacher's own functions is translated directly from the source.
-/

/-- Watch event types (watch.EventType). -/
inductive WatchEventType
  | added
  | modified
  | deleted
  | bookmark
  | error
  deriving DecidableEq, Repr

/-- An object as stored in the cache, reduced to the attributes the embedded
code reads: namespace, name and the value of the configured trigger field. -/
structure StoredObject where
  nsp : String
  name : String
  trig : String
  deriving DecidableEq, Repr

/-- watchCacheEvent: an event flowing from the watch cache to the dispatcher.
objFields models the event's ObjFields map (Go map lookups default to ""). -/
structure WatchCacheEvent where
  type : WatchEventType
  object : StoredObject
  prevObject : Option StoredObject
  resourceVersion : Nat
  objFields : List (String × String)
  deriving DecidableEq, Repr

/-- namespacedName: the scope key of the allWatchers registry map. -/
structure NamespacedName where
  nsp : String
  name : String
  deriving DecidableEq, Repr

/-- Lookup in a string-to-string map with the Go zero-value default "". -/
def mapLookupD (m : List (String × String)) (k : String) : String :=
  match m.find? (fun p => decide (p.1 = k)) with
  | some p => p.2
  | none => ""

/-- Modelled from the spec: Versioner.Parse (the versioner implementation is
not part of the embedded source). The empty string parses to 0, otherwise the
decimal value; non-numeric input fails. Restricted to the handful of inputs
the concrete witnesses use, so that the kernel can evaluate it. -/
def parseRVModel (s : String) : Option Nat :=
  if s = "" then some 0
  else if s = "0" then some 0
  else if s = "5" then some 5
  else if s = "100" then some 100
  else none

/-- The fields of storage.GetOptions that Cacher.Get reads. -/
structure GetOpts where
  resourceVersion : String
  ignoreNotFound : Bool
  deriving DecidableEq, Repr

/-- External collaborators of Cacher.Get: the versioner's parser, the
readiness gate (check and wait outcomes) and the watch cache's
WaitUntilFreshAndGet, which yields the optional current object for the key
together with the revision at which the cache was read, or fails. -/
structure GetEnv where
  parse : String → Option Nat
  readyCheck : Bool
  readyWaitOk : Bool
  waitFreshAndGet : Nat → String → Option (Option StoredObject × Nat)

/-- Possible outcomes of Cacher.Get. -/
inductive GetOutcome
  | delegated
  | goError
  | serviceUnavailable
  | getFailed
  | value (obj : StoredObject)
  | keyNotFound (readRV : Nat)
  | notFoundZeroed
  deriving DecidableEq, Repr

/-- Cacher.Get, translated from cacher.go: empty rv delegates; a parse error
is returned; rv 0 with a not-ready cache delegates; otherwise wait for
readiness (ServiceUnavailable on failure), wait for freshness at rv, and
return the current value, or KeyNotFound carrying the read revision unless
IgnoreNotFound is set (in which case the output object is zeroed). -/
def cacherGet (env : GetEnv) (key : String) (opts : GetOpts) : GetOutcome :=
  if opts.resourceVersion = "" then GetOutcome.delegated
  else
    match env.parse opts.resourceVersion with
    | none => GetOutcome.goError
    | some getRV =>
      if getRV = 0 ∧ ¬ env.readyCheck then GetOutcome.delegated
      else if ¬ env.readyWaitOk then GetOutcome.serviceUnavailable
      else
        match env.waitFreshAndGet getRV key with
        | none => GetOutcome.getFailed
        | some (some obj, _) => GetOutcome.value obj
        | some (none, readRV) =>
          if opts.ignoreNotFound then GetOutcome.notFoundZeroed
          else GetOutcome.keyNotFound readRV

/-- C1: For every Get call: an empty ResourceVersion delegates to the store;
a parsed rv of 0 with a not-ready cache delegates to the store; in every
other case the call waits for readiness and watch-cache freshness at rv and
returns the cached current value, or a not-found outcome (a KeyNotFound
error carrying the revision at which the cache was read, unless
IgnoreNotFound is set). -/
theorem claim1_get_contract (env : GetEnv) (key : String) (opts : GetOpts) :
    (opts.resourceVersion = "" → cacherGet env key opts = GetOutcome.delegated)
    ∧ (∀ rv : Nat, opts.resourceVersion ≠ "" →
        env.parse opts.resourceVersion = some rv → rv = 0 →
        env.readyCheck = false → cacherGet env key opts = GetOutcome.delegated)
    ∧ (∀ (rv readRV : Nat) (res : Option StoredObject),
        opts.resourceVersion ≠ "" →
        env.parse opts.resourceVersion = some rv →
        (rv = 0 → env.readyCheck = true) →
        env.readyWaitOk = true →
        env.waitFreshAndGet rv key = some (res, readRV) →
        cacherGet env key opts =
          match res with
          | some obj => GetOutcome.value obj
          | none =>
            if opts.ignoreNotFound then GetOutcome.notFoundZeroed
            else GetOutcome.keyNotFound readRV) := by
  refine ⟨fun h => by simp [cacherGet, h], ?_, ?_⟩
  · intro rv hne hp h0 hr
    simp [cacherGet, hne, hp, h0, hr]
  · intro rv readRV res hne hp hready hwait hget
    by_cases h0 : rv = 0
    · have hr := hready h0
      subst h0
      cases res <;> simp [cacherGet, hne, hp, hr, hwait, hget]
    · cases res <;> cases hr : env.readyCheck <;>
        simp [cacherGet, hne, hp, h0, hr, hwait, hget]

/-- Concrete Get environment used by the C1 witness: ready cache, freshness
wait succeeds and finds nothing at revision 7. -/
def getEnvW : GetEnv :=
  { parse := parseRVModel
    readyCheck := true
    readyWaitOk := true
    waitFreshAndGet := fun _ _ => some (none, 7) }

/-- Concrete Get environment used by the C1 witness: cache not ready. -/
def getEnvNotReady : GetEnv :=
  { parse := parseRVModel
    readyCheck := false
    readyWaitOk := false
    waitFreshAndGet := fun _ _ => none }

/-- Witness for C1 at concrete inputs: empty rv delegates, rv "0" with a
not-ready cache delegates, and rv "5" against a ready cache with a missing
key yields KeyNotFound at the read revision 7. -/
theorem claim1_get_contract_witness :
    cacherGet getEnvW "k" { resourceVersion := "", ignoreNotFound := false }
      = GetOutcome.delegated
    ∧ cacherGet getEnvNotReady "k" { resourceVersion := "0", ignoreNotFound := false }
      = GetOutcome.delegated
    ∧ cacherGet getEnvW "k" { resourceVersion := "5", ignoreNotFound := false }
      = GetOutcome.keyNotFound 7 := by
  refine ⟨?_, ?_, ?_⟩
  · exact (claim1_get_contract getEnvW "k" _).1 rfl
  · exact (claim1_get_contract getEnvNotReady "k" _).2.1 0 (by decide) (by decide) rfl rfl
  · exact (claim1_get_contract getEnvW "k" _).2.2 5 7 none (by decide) (by decide)
      (fun h => absurd h (by decide)) rfl rfl

/-- The fields of the selection predicate that GetList and shouldDelegateList
read. -/
structure ListPredicate where
  continueToken : String
  limit : Nat
  deriving DecidableEq, Repr

/-- The fields of storage.ListOptions that GetList reads. -/
structure ListOptionsM where
  resourceVersion : String
  resourceVersionMatch : String
  pred : ListPredicate
  deriving DecidableEq, Repr

/-- shouldDelegateList, translated from cacher.go. pagingEnabled models the
APIListChunking feature gate (external configuration). -/
def shouldDelegateList (pagingEnabled : Bool) (opts : ListOptionsM) : Bool :=
  let hasContinuation := pagingEnabled && !(opts.pred.continueToken == "")
  let hasLimit := pagingEnabled && decide (0 < opts.pred.limit)
    && !(opts.resourceVersion == "0")
  let unsupportedMatch := !(opts.resourceVersionMatch == "")
    && !(opts.resourceVersionMatch == "NotOlderThan")
  (opts.resourceVersion == "") || hasContinuation || hasLimit || unsupportedMatch

/-- External collaborators of Cacher.GetList: the chunking feature gate, the
versioner's parser, the readiness gate and the watch cache's
WaitUntilFreshAndList (abstracted to the read revision it returns). -/
structure ListEnv where
  pagingEnabled : Bool
  parse : String → Option Nat
  readyCheck : Bool
  readyWaitOk : Bool
  waitFreshAndList : Nat → Option Nat

/-- Possible outcomes of Cacher.GetList. -/
inductive ListOutcome
  | delegated
  | goError
  | serviceUnavailable
  | listFailed
  | served (readRV : Nat)
  deriving DecidableEq, Repr

/-- Cacher.GetList, translated from cacher.go: delegate iff
shouldDelegateList; a parse error is returned; a parsed rv of 0 with a
not-ready cache delegates; otherwise wait for readiness and serve the list
from the cache at the revision the freshness wait returns. -/
def cacherGetList (env : ListEnv) (opts : ListOptionsM) : ListOutcome :=
  if shouldDelegateList env.pagingEnabled opts then ListOutcome.delegated
  else
    match env.parse opts.resourceVersion with
    | none => ListOutcome.goError
    | some listRV =>
      if listRV = 0 ∧ ¬ env.readyCheck then ListOutcome.delegated
      else if ¬ env.readyWaitOk then ListOutcome.serviceUnavailable
      else
        match env.waitFreshAndList listRV with
        | none => ListOutcome.listFailed
        | some readRV => ListOutcome.served readRV

/-- The delegation condition exactly as the claim words it (for comparison
with the source): empty rv; non-empty continuation with chunking enabled;
non-zero limit with rv other than "0"; match other than empty/NotOlderThan. -/
def claimedDelegateCondition (chunkingEnabled : Bool) (opts : ListOptionsM) : Bool :=
  (opts.resourceVersion == "")
  || (chunkingEnabled && !(opts.pred.continueToken == ""))
  || (decide (0 < opts.pred.limit) && !(opts.resourceVersion == "0"))
  || (!(opts.resourceVersionMatch == "") && !(opts.resourceVersionMatch == "NotOlderThan"))

/-- Concrete GetList environment for the C2 counterexample: chunking on,
cache not ready. -/
def listEnvCE : ListEnv :=
  { pagingEnabled := true
    parse := parseRVModel
    readyCheck := false
    readyWaitOk := true
    waitFreshAndList := fun _ => some 10 }

/-- Concrete list options for the C2 counterexample: rv "0", no continuation,
no limit, no match. -/
def listOptsCE : ListOptionsM :=
  { resourceVersion := "0"
    resourceVersionMatch := ""
    pred := { continueToken := "", limit := 0 } }

/-- C2 counterexample: with rv "0", no continuation, no limit and no match
set, none of the claim's delegation conditions holds, yet when the cache is
not ready the call is delegated to the backing store — so the claimed
"delegated iff" equivalence is false on the code. -/
theorem claim2_counterexample :
    cacherGetList listEnvCE listOptsCE = ListOutcome.delegated
    ∧ claimedDelegateCondition true listOptsCE = false := by
  constructor
  · decide
  · decide

/-- C2, amended: with chunking enabled, a GetList call is delegated to the
backing store iff the claim's four conditions hold, or the resource version
parses to 0 and the cache is not ready. -/
theorem claim2_getlist_delegation (env : ListEnv) (opts : ListOptionsM)
    (hpaging : env.pagingEnabled = true) :
    cacherGetList env opts = ListOutcome.delegated ↔
      (claimedDelegateCondition true opts = true
        ∨ (env.parse opts.resourceVersion = some 0 ∧ env.readyCheck = false)) := by
  have hsd : shouldDelegateList env.pagingEnabled opts = claimedDelegateCondition true opts := by
    simp [shouldDelegateList, claimedDelegateCondition, hpaging]
  by_cases hc : claimedDelegateCondition true opts = true
  · simp [cacherGetList, hsd, hc]
  · have hc' : claimedDelegateCondition true opts = false := by
      simpa using hc
    cases hp : env.parse opts.resourceVersion with
    | none => simp [cacherGetList, hsd, hc', hp]
    | some listRV =>
      by_cases h0 : listRV = 0
      · subst h0
        cases hr : env.readyCheck with
        | false => simp [cacherGetList, hsd, hc', hp, hr]
        | true =>
          cases hw : env.readyWaitOk with
          | false => simp [cacherGetList, hsd, hc', hp, hr, hw]
          | true =>
            cases hl : env.waitFreshAndList 0 with
            | none => simp [cacherGetList, hsd, hc', hp, hr, hw, hl]
            | some readRV => simp [cacherGetList, hsd, hc', hp, hr, hw, hl]
      · cases hw : env.readyWaitOk with
        | false => simp [cacherGetList, hsd, hc', hp, h0, hw]
        | true =>
          cases hl : env.waitFreshAndList listRV with
          | none => simp [cacherGetList, hsd, hc', hp, h0, hw, hl]
          | some readRV => simp [cacherGetList, hsd, hc', hp, h0, hw, hl]

/-- Concrete GetList environment for the C2 witness: chunking on, ready. -/
def listEnvW : ListEnv :=
  { pagingEnabled := true
    parse := parseRVModel
    readyCheck := true
    readyWaitOk := true
    waitFreshAndList := fun _ => some 12 }

/-- Witness for the amended C2 at a concrete input: empty rv delegates and
the amended condition agrees. -/
theorem claim2_getlist_delegation_witness :
    cacherGetList listEnvW
        { resourceVersion := "", resourceVersionMatch := ""
          pred := { continueToken := "", limit := 0 } } = ListOutcome.delegated ↔
      (claimedDelegateCondition true
          { resourceVersion := "", resourceVersionMatch := ""
            pred := { continueToken := "", limit := 0 } } = true
        ∨ (listEnvW.parse "" = some 0 ∧ listEnvW.readyCheck = false)) :=
  claim2_getlist_delegation listEnvW _ rfl

/-- Lookup of a bucket in a registry map modelled as an association list
(Go map semantics: a missing key yields an empty bucket). -/
def lookupBucket {k : Type} [DecidableEq k] (m : List (k × List Nat)) (key : k) : List Nat :=
  match m.find? (fun p => decide (p.1 = key)) with
  | some p => p.2
  | none => []

/-- All watcher ids appearing in a registry map, in iteration order. -/
def allBucketIds {k : Type} (m : List (k × List Nat)) : List Nat :=
  m.foldr (fun p acc => p.2 ++ acc) []

theorem mem_allBucketIds {k : Type} (m : List (k × List Nat)) (id : Nat) :
    id ∈ allBucketIds m ↔ ∃ p ∈ m, id ∈ p.2 := by
  induction m with
  | nil => simp [allBucketIds]
  | cons p rest ih =>
    unfold allBucketIds at ih ⊢
    simp only [List.foldr_cons, List.mem_append, ih, List.mem_cons]
    constructor
    · rintro (h | ⟨q, hq, hidq⟩)
      · exact ⟨p, Or.inl rfl, h⟩
      · exact ⟨q, Or.inr hq, hidq⟩
    · rintro ⟨q, hq | hq, hidq⟩
      · subst hq
        exact Or.inl hidq
      · exact Or.inr ⟨q, hq, hidq⟩

/-- The parts of the Cacher that the dispatcher's watcher selection reads:
the two registry maps (buckets of watcher ids), the configured trigger
function, and the watchers popped from the bookmark queue (consulted only
for bookmark events). -/
structure DispatchCacher where
  allWatchers : List (NamespacedName × List Nat)
  valueWatchers : List (String × List Nat)
  indexedTrigger : Option (StoredObject → String)
  expiredBookmark : List Nat

/-- Cacher.triggerValuesThreadUnsafe, translated from cacher.go: when no
trigger index is configured the result is (nil, false); otherwise the
current object's trigger value, plus the previous object's value when it
differs, with supported = true. -/
def triggerValuesThreadUnsafe (trigger : Option (StoredObject → String))
    (ev : WatchCacheEvent) : List String × Bool :=
  match trigger with
  | none => ([], false)
  | some f =>
    let cur := f ev.object
    match ev.prevObject with
    | none => ([cur], true)
    | some p =>
      let prev := f p
      if cur = prev then ([cur], true) else ([cur, prev], true)

/-- The watchersBuffer computed by Cacher.startDispatching, translated from
cacher.go (ids of the selected watchers, in append order).  For bookmark
events the buffer holds the watchers popped from the bookmark queue. -/
def startDispatchingBuffer (c : DispatchCacher) (ev : WatchCacheEvent) : List Nat :=
  if ev.type = WatchEventType.bookmark then c.expiredBookmark
  else
    let nsv := mapLookupD ev.objFields "metadata.namespace"
    let nmv := mapLookupD ev.objFields "metadata.name"
    let buf1 :=
      if nsv ≠ "" then
        (if nmv ≠ "" then lookupBucket c.allWatchers ⟨nsv, nmv⟩ else [])
          ++ lookupBucket c.allWatchers ⟨nsv, ""⟩
      else []
    let buf2 := if nmv ≠ "" then lookupBucket c.allWatchers ⟨"", nmv⟩ else []
    let buf3 := lookupBucket c.allWatchers ⟨"", ""⟩
    let tv := triggerValuesThreadUnsafe c.indexedTrigger ev
    let buf4 :=
      if tv.2 then (tv.1.map (lookupBucket c.valueWatchers)).foldr (fun a b => a ++ b) []
      else allBucketIds c.valueWatchers
    buf1 ++ buf2 ++ buf3 ++ buf4

/-- C3: for a non-bookmark event, the candidate watcher set is exactly the
union of the four allWatchers buckets for (namespace, name) with empty
components meaning "any", plus, when a trigger index is configured, the
valueWatchers buckets of the event's current trigger value and of its
previous trigger value when that differs, and, when no trigger index is
configured, every watcher in valueWatchers. -/
theorem claim3_dispatch_candidates (c : DispatchCacher) (ev : WatchCacheEvent) (w : Nat)
    (hb : ev.type ≠ WatchEventType.bookmark) :
    w ∈ startDispatchingBuffer c ev ↔
      ((w ∈ lookupBucket c.allWatchers
            ⟨mapLookupD ev.objFields "metadata.namespace",
             mapLookupD ev.objFields "metadata.name"⟩
        ∨ w ∈ lookupBucket c.allWatchers
            ⟨mapLookupD ev.objFields "metadata.namespace", ""⟩
        ∨ w ∈ lookupBucket c.allWatchers
            ⟨"", mapLookupD ev.objFields "metadata.name"⟩
        ∨ w ∈ lookupBucket c.allWatchers ⟨"", ""⟩)
      ∨ (match c.indexedTrigger with
         | some f =>
             w ∈ lookupBucket c.valueWatchers (f ev.object)
             ∨ ∃ p, ev.prevObject = some p ∧ f p ≠ f ev.object
                 ∧ w ∈ lookupBucket c.valueWatchers (f p)
         | none => ∃ pr ∈ c.valueWatchers, w ∈ pr.2)) := by
  unfold startDispatchingBuffer
  rw [if_neg hb]
  rcases htr : c.indexedTrigger with _ | f
  · by_cases hns : mapLookupD ev.objFields "metadata.namespace" = "" <;>
      by_cases hnm : mapLookupD ev.objFields "metadata.name" = "" <;>
      simp [triggerValuesThreadUnsafe, hns, hnm, mem_allBucketIds, List.mem_append] <;>
      tauto
  · rcases hp : ev.prevObject with _ | p
    · by_cases hns : mapLookupD ev.objFields "metadata.namespace" = "" <;>
        by_cases hnm : mapLookupD ev.objFields "metadata.name" = "" <;>
        simp [triggerValuesThreadUnsafe, hp, hns, hnm, List.mem_append] <;>
        tauto
    · by_cases heq : f ev.object = f p
      · by_cases hns : mapLookupD ev.objFields "metadata.namespace" = "" <;>
          by_cases hnm : mapLookupD ev.objFields "metadata.name" = "" <;>
          simp [triggerValuesThreadUnsafe, hp, heq, hns, hnm, List.mem_append] <;>
          tauto
      · have heq' : f p ≠ f ev.object := fun h => heq h.symm
        by_cases hns : mapLookupD ev.objFields "metadata.namespace" = "" <;>
          by_cases hnm : mapLookupD ev.objFields "metadata.name" = "" <;>
          simp [triggerValuesThreadUnsafe, hp, heq, heq', hns, hnm, List.mem_append] <;>
          tauto

/-- A concrete dispatch registry for the C3 witness: one namespaced watcher,
one cluster-wide watcher, two value watchers, and a trigger on the trig
field. -/
def dispatchCacherW : DispatchCacher :=
  { allWatchers := [(⟨"ns1", ""⟩, [1]), (⟨"", ""⟩, [2])]
    valueWatchers := [("a", [3]), ("b", [4])]
    indexedTrigger := some (fun o => o.trig)
    expiredBookmark := [] }

/-- A concrete modification event for the C3 witness whose trigger value
changed from "b" to "a". -/
def dispatchEventW : WatchCacheEvent :=
  { type := WatchEventType.modified
    object := { nsp := "ns1", name := "x", trig := "a" }
    prevObject := some { nsp := "ns1", name := "x", trig := "b" }
    resourceVersion := 20
    objFields := [("metadata.namespace", "ns1"), ("metadata.name", "x")] }

/-- Witness for C3 at a concrete event and registry. -/
theorem claim3_dispatch_candidates_witness :
    dispatchEventW.type ≠ WatchEventType.bookmark
    ∧ (4 ∈ startDispatchingBuffer dispatchCacherW dispatchEventW ↔
        ((4 ∈ lookupBucket dispatchCacherW.allWatchers
              ⟨mapLookupD dispatchEventW.objFields "metadata.namespace",
               mapLookupD dispatchEventW.objFields "metadata.name"⟩
          ∨ 4 ∈ lookupBucket dispatchCacherW.allWatchers
              ⟨mapLookupD dispatchEventW.objFields "metadata.namespace", ""⟩
          ∨ 4 ∈ lookupBucket dispatchCacherW.allWatchers
              ⟨"", mapLookupD dispatchEventW.objFields "metadata.name"⟩
          ∨ 4 ∈ lookupBucket dispatchCacherW.allWatchers ⟨"", ""⟩)
        ∨ (match dispatchCacherW.indexedTrigger with
           | some f =>
               4 ∈ lookupBucket dispatchCacherW.valueWatchers (f dispatchEventW.object)
               ∨ ∃ p, dispatchEventW.prevObject = some p ∧ f p ≠ f dispatchEventW.object
                   ∧ 4 ∈ lookupBucket dispatchCacherW.valueWatchers (f p)
           | none => ∃ pr ∈ dispatchCacherW.valueWatchers, 4 ∈ pr.2))) :=
  ⟨by decide, claim3_dispatch_candidates dispatchCacherW dispatchEventW 4 (by decide)⟩

/-- A dispatch performed by the dispatcher loop: either a real (non-bookmark)
event forwarded from the incoming channel, or a bookmark synthesised on a
timer tick at the recorded last processed revision. -/
inductive DispatchLogEntry
  | realEvent (ev : WatchCacheEvent)
  | tickBookmark (rv : Nat)
  deriving DecidableEq, Repr

/-- The inputs one iteration of Cacher.dispatchEvents can consume from its
select: an event from the incoming channel, or a bookmark timer tick. -/
inductive DispatcherInput
  | event (ev : WatchCacheEvent)
  | tick
  deriving DecidableEq, Repr

/-- State of the dispatcher loop: the lastProcessedResourceVersion local
variable and the log of events handed to dispatchEvent. -/
structure DispatcherState where
  lastProcessedRV : Nat
  log : List DispatchLogEntry
  deriving DecidableEq, Repr

/-- One iteration of the Cacher.dispatchEvents select loop, translated from
cacher.go: an incoming event is dispatched unless it is a bookmark, and in
either case updates lastProcessedResourceVersion; a bookmark timer tick
synthesises and dispatches a bookmark at lastProcessedResourceVersion unless
that revision is still 0 (versioner.UpdateObject on a fresh object is
modelled as always succeeding). -/
def dispatchEventsStep (s : DispatcherState) : DispatcherInput → DispatcherState
  | DispatcherInput.event ev =>
    { lastProcessedRV := ev.resourceVersion
      log := if ev.type = WatchEventType.bookmark then s.log
             else s.log ++ [DispatchLogEntry.realEvent ev] }
  | DispatcherInput.tick =>
    if s.lastProcessedRV = 0 then s
    else { s with log := s.log ++ [DispatchLogEntry.tickBookmark s.lastProcessedRV] }

/-- The dispatcher loop run from startup over a list of inputs. -/
def runDispatcher (inputs : List DispatcherInput) : DispatcherState :=
  inputs.foldl dispatchEventsStep { lastProcessedRV := 0, log := [] }

/-- The resource version of the last incoming event in a list of dispatcher
inputs (0 when there is none): the value lastProcessedResourceVersion holds
after the inputs are consumed. -/
def lastRVofInputs (inputs : List DispatcherInput) : Nat :=
  inputs.foldl
    (fun acc i =>
      match i with
      | DispatcherInput.event ev => ev.resourceVersion
      | DispatcherInput.tick => acc) 0

theorem dispatcher_lastRV_aux (inputs : List DispatcherInput) (s : DispatcherState) :
    (inputs.foldl dispatchEventsStep s).lastProcessedRV =
      inputs.foldl
        (fun acc i =>
          match i with
          | DispatcherInput.event ev => ev.resourceVersion
          | DispatcherInput.tick => acc) s.lastProcessedRV := by
  induction inputs generalizing s with
  | nil => rfl
  | cons i rest ih =>
    cases i with
    | event ev => simp [List.foldl_cons, dispatchEventsStep, ih]
    | tick =>
      by_cases h0 : s.lastProcessedRV = 0 <;>
        simp [List.foldl_cons, dispatchEventsStep, h0, ih]

theorem dispatcher_no_storage_bookmark_aux (inputs : List DispatcherInput)
    (s : DispatcherState)
    (hs : ∀ ev, DispatchLogEntry.realEvent ev ∈ s.log → ev.type ≠ WatchEventType.bookmark) :
    ∀ ev, DispatchLogEntry.realEvent ev ∈ (inputs.foldl dispatchEventsStep s).log →
      ev.type ≠ WatchEventType.bookmark := by
  induction inputs generalizing s with
  | nil => exact hs
  | cons i rest ih =>
    cases i with
    | event ev =>
      refine ih _ ?_
      intro ev' hmem
      by_cases hB : ev.type = WatchEventType.bookmark
      · simp only [dispatchEventsStep, if_pos hB] at hmem
        exact hs ev' hmem
      · simp only [dispatchEventsStep, if_neg hB, List.mem_append,
          List.mem_singleton] at hmem
        rcases hmem with h | h
        · exact hs ev' h
        · cases h
          exact hB
    | tick =>
      refine ih _ ?_
      intro ev' hmem
      by_cases h0 : s.lastProcessedRV = 0
      · simp only [dispatchEventsStep, if_pos h0] at hmem
        exact hs ev' hmem
      · simp only [dispatchEventsStep, if_neg h0, List.mem_append,
          List.mem_singleton] at hmem
        rcases hmem with h | h
        · exact hs ev' h
        · cases h

/-- C4, amended: the dispatcher never dispatches a Bookmark event arriving
from the storage layer to any watcher, and a bookmark timer tick dispatches
a synthesised Bookmark at the last processed revision iff that revision is
non-zero — i.e. iff at least one incoming event of ANY type (real events and
storage bookmarks alike) carrying a non-zero resource version has been
processed since startup, not only real events. -/
theorem claim4_dispatch_bookmark_policy (inputs : List DispatcherInput) :
    (∀ ev, DispatchLogEntry.realEvent ev ∈ (runDispatcher inputs).log →
      ev.type ≠ WatchEventType.bookmark)
    ∧ (runDispatcher inputs).lastProcessedRV = lastRVofInputs inputs
    ∧ (runDispatcher (inputs ++ [DispatcherInput.tick])).log =
        (runDispatcher inputs).log ++
          (if lastRVofInputs inputs = 0 then []
           else [DispatchLogEntry.tickBookmark (lastRVofInputs inputs)]) := by
  have hlast : (runDispatcher inputs).lastProcessedRV = lastRVofInputs inputs :=
    dispatcher_lastRV_aux inputs _
  refine ⟨dispatcher_no_storage_bookmark_aux inputs _ (by simp), hlast, ?_⟩
  have happ : runDispatcher (inputs ++ [DispatcherInput.tick]) =
      dispatchEventsStep (runDispatcher inputs) DispatcherInput.tick := by
    simp [runDispatcher, List.foldl_append]
  rw [happ]
  by_cases h0 : lastRVofInputs inputs = 0
  · simp [dispatchEventsStep, hlast, h0]
  · simp [dispatchEventsStep, hlast, h0]

/-- A bookmark event as delivered by the storage layer (watch progress
notification) at revision 5. -/
def storageBookmarkEv : WatchCacheEvent :=
  { type := WatchEventType.bookmark
    object := { nsp := "", name := "", trig := "" }
    prevObject := none
    resourceVersion := 5
    objFields := [] }

/-- C4 counterexample: after processing only a storage-layer bookmark — no
real (non-bookmark) event at all — the bookmark is itself not dispatched,
yet the next timer tick still dispatches a synthesised bookmark at
revision 5.  This contradicts the claim that a tick dispatches a bookmark
iff at least one real event has been processed since startup. -/
theorem claim4_counterexample :
    storageBookmarkEv.type = WatchEventType.bookmark
    ∧ (runDispatcher [DispatcherInput.event storageBookmarkEv]).log = []
    ∧ (runDispatcher [DispatcherInput.event storageBookmarkEv, DispatcherInput.tick]).log
        = [DispatchLogEntry.tickBookmark 5] := by
  refine ⟨rfl, by decide, by decide⟩

/-- The dispatcher-relevant behaviour of one registered watcher: whether its
input channel can take the event without blocking (the outcome of
nonblockingAdd) and whether it would unblock before the shared timer fires
during a budgeted blocking send.  Modelled from the spec: the per-watcher
channel mechanics are outside the embedded source. -/
structure SimWatcher where
  id : Nat
  nonblockingOk : Bool
  acceptsInTime : Bool
  deriving DecidableEq, Repr

/-- What dispatching one event does to one watcher. -/
inductive DeliveryOutcome
  | delivered
  | missed
  | forceClosed
  deriving DecidableEq, Repr

/-- Modelled from the spec: timeBudget.takeAvailable hands out the entire
accumulated allowance and leaves the budget empty. -/
def budgetTakeAvailable (b : Nat) : Nat × Nat := (b, 0)

/-- Modelled from the spec: timeBudget.returnUnused adds the unused part of a
taken allowance back, capped at 100 (milliseconds). -/
def budgetReturnUnused (b unused : Nat) : Nat := min 100 (b + unused)

/-- Cacher.dispatchEvent, translated from cacher.go, with the per-watcher
channel behaviour abstracted by SimWatcher and the real time spent in the
budgeted phase abstracted by the elapsed parameter.  A Bookmark event goes
through the nonblocking path only.  Any other event is first offered to
every watcher without blocking; if some watchers would block, the entire
time budget is taken, the blocked watchers get a blocking send bounded by
the shared timer, watchers that do not accept in time are force-closed, and
the unused allowance is returned to the budget. -/
def dispatchEventOutcomes (budget elapsed : Nat) (ev : WatchCacheEvent)
    (ws : List SimWatcher) : List (Nat × DeliveryOutcome) × Nat :=
  if ev.type = WatchEventType.bookmark then
    (ws.map (fun w =>
      (w.id, if w.nonblockingOk then DeliveryOutcome.delivered else DeliveryOutcome.missed)),
     budget)
  else
    if (ws.filter (fun w => !w.nonblockingOk)).isEmpty then
      (ws.map (fun w => (w.id, DeliveryOutcome.delivered)), budget)
    else
      let taken := budgetTakeAvailable budget
      let outcomes := ws.map (fun w =>
        (w.id,
         if w.nonblockingOk then DeliveryOutcome.delivered
         else if 0 < taken.1 ∧ w.acceptsInTime then DeliveryOutcome.delivered
         else DeliveryOutcome.forceClosed))
      (outcomes, budgetReturnUnused taken.2 (taken.1 - elapsed))

/-- C5: a Bookmark event is delivered only via the nonblocking enqueue path:
every watcher either receives it (its channel had room) or simply misses it;
no watcher is force-closed by a bookmark delivery and the dispatch time
budget is left untouched. -/
theorem claim5_bookmark_nonblocking (budget elapsed : Nat) (ev : WatchCacheEvent)
    (ws : List SimWatcher) (hb : ev.type = WatchEventType.bookmark) :
    (dispatchEventOutcomes budget elapsed ev ws).1 =
      ws.map (fun w =>
        (w.id, if w.nonblockingOk then DeliveryOutcome.delivered else DeliveryOutcome.missed))
    ∧ (∀ pr ∈ (dispatchEventOutcomes budget elapsed ev ws).1,
        pr.2 ≠ DeliveryOutcome.forceClosed)
    ∧ (dispatchEventOutcomes budget elapsed ev ws).2 = budget := by
  refine ⟨by simp [dispatchEventOutcomes, hb], ?_, by simp [dispatchEventOutcomes, hb]⟩
  intro pr hpr
  simp only [dispatchEventOutcomes, if_pos hb, List.mem_map] at hpr
  obtain ⟨w, _, rfl⟩ := hpr
  by_cases h : w.nonblockingOk <;> simp [h]

/-- A bookmark event at revision 9, used by the C5 witness. -/
def bookmarkEvW : WatchCacheEvent :=
  { type := WatchEventType.bookmark
    object := { nsp := "", name := "", trig := "" }
    prevObject := none
    resourceVersion := 9
    objFields := [] }

/-- Concrete watchers for the C5 witness: one with room in its channel, one
that would block. -/
def simWatchersW : List SimWatcher :=
  [{ id := 1, nonblockingOk := true, acceptsInTime := true },
   { id := 2, nonblockingOk := false, acceptsInTime := false }]

/-- Witness for C5 at a concrete bookmark event, budget and watcher list. -/
theorem claim5_bookmark_nonblocking_witness :
    (dispatchEventOutcomes 7 3 bookmarkEvW simWatchersW).1 =
      simWatchersW.map (fun w =>
        (w.id, if w.nonblockingOk then DeliveryOutcome.delivered else DeliveryOutcome.missed))
    ∧ (∀ pr ∈ (dispatchEventOutcomes 7 3 bookmarkEvW simWatchersW).1,
        pr.2 ≠ DeliveryOutcome.forceClosed)
    ∧ (dispatchEventOutcomes 7 3 bookmarkEvW simWatchersW).2 = 7 :=
  claim5_bookmark_nonblocking 7 3 bookmarkEvW simWatchersW rfl

/-- Insert a watcher id into the bucket under the given key, creating the
bucket when absent (watchersMap.addWatcher as used by
indexedWatchers.addWatcher; Go map keys are unique, so the first matching
key is the bucket). -/
def bucketInsert {k : Type} [DecidableEq k] (m : List (k × List Nat)) (key : k)
    (id : Nat) : List (k × List Nat) :=
  match m with
  | [] => [(key, [id])]
  | p :: rest =>
    if p.1 = key then (p.1, p.2 ++ [id]) :: rest
    else p :: bucketInsert rest key id

/-- Delete a watcher id from the bucket under the given key, dropping the
bucket when it becomes empty (watchersMap.deleteWatcher plus the empty-bucket
cleanup in indexedWatchers.deleteWatcher). -/
def bucketDelete {k : Type} [DecidableEq k] (m : List (k × List Nat)) (key : k)
    (id : Nat) : List (k × List Nat) :=
  match m with
  | [] => []
  | p :: rest =>
    if p.1 = key then
      let b := p.2.filter (fun x => x != id)
      if b.isEmpty then rest else (p.1, b) :: rest
    else p :: bucketDelete rest key id

/-- indexedWatchers: the watcher registry keyed by scope and by trigger
value (buckets of watcher ids, standing for the Go number-to-watcher maps). -/
structure IndexedWatchers where
  allWatchers : List (NamespacedName × List Nat)
  valueWatchers : List (String × List Nat)
  deriving DecidableEq, Repr

/-- indexedWatchers.addWatcher, translated from cacher.go: insert into
valueWatchers[value] iff the trigger is supported, else into
allWatchers[scope]. -/
def addWatcher (iw : IndexedWatchers) (id : Nat) (scope : NamespacedName)
    (value : String) (supported : Bool) : IndexedWatchers :=
  if supported then
    { iw with valueWatchers := bucketInsert iw.valueWatchers value id }
  else
    { iw with allWatchers := bucketInsert iw.allWatchers scope id }

/-- indexedWatchers.deleteWatcher, translated from cacher.go: delete from the
map chosen by the supported flag recorded at registration. -/
def deleteWatcher (iw : IndexedWatchers) (id : Nat) (scope : NamespacedName)
    (value : String) (supported : Bool) : IndexedWatchers :=
  if supported then
    { iw with valueWatchers := bucketDelete iw.valueWatchers value id }
  else
    { iw with allWatchers := bucketDelete iw.allWatchers scope id }

/-- A watcher id occurs somewhere in a registry map. -/
def idInBuckets {k : Type} (m : List (k × List Nat)) (id : Nat) : Prop :=
  ∃ p ∈ m, id ∈ p.2

instance {k : Type} (m : List (k × List Nat)) (id : Nat) :
    Decidable (idInBuckets m id) := by
  unfold idInBuckets
  infer_instance

theorem idInBuckets_insert {k : Type} [DecidableEq k] (m : List (k × List Nat))
    (key : k) (id j : Nat) :
    idInBuckets (bucketInsert m key id) j ↔ idInBuckets m j ∨ j = id := by
  induction m with
  | nil => simp [bucketInsert, idInBuckets]
  | cons p rest ih =>
    by_cases hk : p.1 = key
    · simp only [bucketInsert, if_pos hk, idInBuckets, List.mem_cons] at ih ⊢
      constructor
      · rintro ⟨q, hq | hq, hjq⟩
        · subst hq
          simp only [List.mem_append, List.mem_singleton] at hjq
          rcases hjq with h | h
          · exact Or.inl ⟨p, Or.inl rfl, h⟩
          · exact Or.inr h
        · exact Or.inl ⟨q, Or.inr hq, hjq⟩
      · rintro (⟨q, hq | hq, hjq⟩ | hj)
        · subst hq
          exact ⟨(q.1, q.2 ++ [id]), Or.inl rfl, by simp [hjq]⟩
        · exact ⟨q, Or.inr hq, hjq⟩
        · exact ⟨(p.1, p.2 ++ [id]), Or.inl rfl, by simp [hj]⟩
    · simp only [bucketInsert, if_neg hk, idInBuckets, List.mem_cons] at ih ⊢
      constructor
      · rintro ⟨q, hq | hq, hjq⟩
        · subst hq
          exact Or.inl ⟨q, Or.inl rfl, hjq⟩
        · rcases ih.1 ⟨q, hq, hjq⟩ with ⟨r, hr, hjr⟩ | hj
          · exact Or.inl ⟨r, Or.inr hr, hjr⟩
          · exact Or.inr hj
      · rintro (⟨q, hq | hq, hjq⟩ | hj)
        · subst hq
          exact ⟨q, Or.inl rfl, hjq⟩
        · rcases ih.2 (Or.inl ⟨q, hq, hjq⟩) with ⟨r, hr, hjr⟩
          exact ⟨r, Or.inr hr, hjr⟩
        · rcases ih.2 (Or.inr hj) with ⟨r, hr, hjr⟩
          exact ⟨r, Or.inr hr, hjr⟩

theorem idInBuckets_delete {k : Type} [DecidableEq k] (m : List (k × List Nat))
    (key : k) (id j : Nat) :
    idInBuckets (bucketDelete m key id) j → idInBuckets m j := by
  induction m with
  | nil => simp [bucketDelete]
  | cons p rest ih =>
    by_cases hk : p.1 = key
    · simp only [bucketDelete, if_pos hk]
      by_cases hemp : (p.2.filter (fun x => x != id)).isEmpty
      · simp only [if_pos hemp, idInBuckets, List.mem_cons]
        rintro ⟨q, hq, hjq⟩
        exact ⟨q, Or.inr hq, hjq⟩
      · simp only [if_neg hemp, idInBuckets, List.mem_cons]
        rintro ⟨q, hq | hq, hjq⟩
        · subst hq
          simp only [List.mem_filter] at hjq
          exact ⟨p, Or.inl rfl, hjq.1⟩
        · exact ⟨q, Or.inr hq, hjq⟩
    · simp only [bucketDelete, if_neg hk, idInBuckets, List.mem_cons]
      rintro ⟨q, hq | hq, hjq⟩
      · subst hq
        exact ⟨q, Or.inl rfl, hjq⟩
      · rcases ih ⟨q, hq, hjq⟩ with ⟨r, hr, hjr⟩
        exact ⟨r, Or.inr hr, hjr⟩

/-- Registry operations as issued by the cacher: Watch registration (add,
with the id drawn from the watcherIdx counter) and forgetWatcher (delete at
the coordinates recorded at registration). -/
inductive RegistryOp
  | add (scope : NamespacedName) (value : String) (supported : Bool)
  | del (id : Nat) (scope : NamespacedName) (value : String) (supported : Bool)
  deriving DecidableEq, Repr

/-- The registry together with the watcherIdx counter. -/
structure RegistryState where
  watchers : IndexedWatchers
  watcherIdx : Nat
  deriving DecidableEq, Repr

/-- One registry operation: Watch registers under the current watcherIdx and
increments it; forgetWatcher deletes. -/
def registryStep (s : RegistryState) : RegistryOp → RegistryState
  | RegistryOp.add scope value supported =>
    { watchers := addWatcher s.watchers s.watcherIdx scope value supported
      watcherIdx := s.watcherIdx + 1 }
  | RegistryOp.del id scope value supported =>
    { s with watchers := deleteWatcher s.watchers id scope value supported }

/-- A sequence of registry operations run from the empty registry of a fresh
cacher. -/
def runRegistry (ops : List RegistryOp) : RegistryState :=
  ops.foldl registryStep
    { watchers := { allWatchers := [], valueWatchers := [] }, watcherIdx := 0 }

/-- Registry well-formedness: all registered ids are below the counter, and
no id is in both maps. -/
def RegistryWellFormed (s : RegistryState) : Prop :=
  (∀ id, idInBuckets s.watchers.allWatchers id → id < s.watcherIdx)
  ∧ (∀ id, idInBuckets s.watchers.valueWatchers id → id < s.watcherIdx)
  ∧ ∀ id, ¬ (idInBuckets s.watchers.allWatchers id
      ∧ idInBuckets s.watchers.valueWatchers id)

theorem registryStep_wellFormed (s : RegistryState) (op : RegistryOp)
    (h : RegistryWellFormed s) : RegistryWellFormed (registryStep s op) := by
  obtain ⟨hA, hV, hX⟩ := h
  cases op with
  | add scope value supported =>
    cases supported with
    | true =>
      refine ⟨?_, ?_, ?_⟩
      · intro id hid
        simp only [registryStep, addWatcher, if_pos rfl] at hid ⊢
        exact Nat.lt_succ_of_lt (hA id hid)
      · intro id hid
        simp only [registryStep, addWatcher, if_pos rfl] at hid ⊢
        rcases (idInBuckets_insert _ _ _ _).1 hid with hold | hnew
        · exact Nat.lt_succ_of_lt (hV id hold)
        · subst hnew
          exact Nat.lt_succ_self _
      · intro id hid
        simp only [registryStep, addWatcher, if_pos rfl] at hid
        obtain ⟨hidA, hidV⟩ := hid
        rcases (idInBuckets_insert _ _ _ _).1 hidV with hold | hnew
        · exact hX id ⟨hidA, hold⟩
        · subst hnew
          exact Nat.lt_irrefl _ (hA _ hidA)
    | false =>
      refine ⟨?_, ?_, ?_⟩
      · intro id hid
        simp [registryStep, addWatcher] at hid ⊢
        rcases (idInBuckets_insert _ _ _ _).1 hid with hold | hnew
        · exact Nat.lt_succ_of_lt (hA id hold)
        · subst hnew
          exact Nat.lt_succ_self _
      · intro id hid
        simp [registryStep, addWatcher] at hid ⊢
        exact Nat.lt_succ_of_lt (hV id hid)
      · intro id hid
        simp [registryStep, addWatcher] at hid
        obtain ⟨hidA, hidV⟩ := hid
        rcases (idInBuckets_insert _ _ _ _).1 hidA with hold | hnew
        · exact hX id ⟨hold, hidV⟩
        · subst hnew
          exact Nat.lt_irrefl _ (hV _ hidV)
  | del id scope value supported =>
    cases supported with
    | true =>
      refine ⟨?_, ?_, ?_⟩
      · intro j hj
        simp only [registryStep, deleteWatcher, if_pos rfl] at hj ⊢
        exact hA j hj
      · intro j hj
        simp only [registryStep, deleteWatcher, if_pos rfl] at hj ⊢
        exact hV j (idInBuckets_delete _ _ _ _ hj)
      · intro j hj
        simp only [registryStep, deleteWatcher, if_pos rfl] at hj
        exact hX j ⟨hj.1, idInBuckets_delete _ _ _ _ hj.2⟩
    | false =>
      refine ⟨?_, ?_, ?_⟩
      · intro j hj
        simp [registryStep, deleteWatcher] at hj ⊢
        exact hA j (idInBuckets_delete _ _ _ _ hj)
      · intro j hj
        simp [registryStep, deleteWatcher] at hj ⊢
        exact hV j hj
      · intro j hj
        simp [registryStep, deleteWatcher] at hj
        exact hX j ⟨idInBuckets_delete _ _ _ _ hj.1, hj.2⟩

theorem runRegistry_wellFormed_aux (ops : List RegistryOp) (s : RegistryState)
    (h : RegistryWellFormed s) : RegistryWellFormed (ops.foldl registryStep s) := by
  induction ops generalizing s with
  | nil => exact h
  | cons op rest ih => exact ih _ (registryStep_wellFormed s op h)

theorem runRegistry_wellFormed (ops : List RegistryOp) :
    RegistryWellFormed (runRegistry ops) := by
  refine runRegistry_wellFormed_aux ops _ ?_
  refine ⟨?_, ?_, ?_⟩ <;> intro id <;> simp [idInBuckets]

/-- The fields of storage.ListOptions and its SelectionPredicate that
Cacher.Watch reads: the resource version string, SendInitialEvents,
AllowWatchBookmarks, the predicate's declared index fields, and the
exact-match constraints of its field selector (RequiresExactMatch, as an
association list). -/
structure WatchOpts where
  resourceVersion : String
  sendInitialEvents : Option Bool
  allowWatchBookmarks : Bool
  indexFields : List String
  fieldExact : List (String × String)
  deriving DecidableEq, Repr

/-- pred.Field.RequiresExactMatch: the exact value the field selector
requires for a field, if any. -/
def requiresExactMatch (opts : WatchOpts) (field : String) : Option String :=
  match opts.fieldExact.find? (fun p => decide (p.1 = field)) with
  | some p => some p.2
  | none => none

/-- The trigger-value inference in Cacher.Watch, translated from cacher.go:
scan the predicate's index fields; for each one equal to the configured
trigger index name whose field selector requires an exact match, record
(value, supported = true). -/
def inferTrigger (idxName : Option String) (opts : WatchOpts) : String × Bool :=
  match idxName with
  | none => ("", false)
  | some nm =>
    opts.indexFields.foldl
      (fun acc field =>
        if field = nm then
          match requiresExactMatch opts field with
          | some v => (v, true)
          | none => acc
        else acc)
      ("", false)

theorem inferTrigger_foldl_aux (opts : WatchOpts) (nm : String)
    (l : List String) (acc : String × Bool) :
    (l.foldl
      (fun acc field =>
        if field = nm then
          match requiresExactMatch opts field with
          | some v => (v, true)
          | none => acc
        else acc)
      acc).2 = true ↔
      acc.2 = true ∨ (nm ∈ l ∧ requiresExactMatch opts nm ≠ none) := by
  induction l generalizing acc with
  | nil => simp
  | cons field l ih =>
    by_cases hf : field = nm
    · subst hf
      cases hm : requiresExactMatch opts field with
      | some v => simp [List.foldl_cons, hm, ih]
      | none => simp [List.foldl_cons, hm, ih]
    · have hf' : ¬ (nm = field) := fun h => hf h.symm
      simp [List.foldl_cons, hf, hf', ih]

/-- C9: every registered watcher resides in exactly one registry map — over
any sequence of add/delete operations from a fresh cacher, no id is ever in
both maps; a registration lands in valueWatchers iff trigger support was
inferred and in allWatchers iff not; and trigger support is inferred iff a
trigger index is configured, the predicate declares it among its index
fields, and the field selector requires an exact match on it. -/
theorem claim9_registry_exclusive (ops : List RegistryOp) :
    (∀ id, ¬ (idInBuckets (runRegistry ops).watchers.allWatchers id
        ∧ idInBuckets (runRegistry ops).watchers.valueWatchers id))
    ∧ (∀ (scope : NamespacedName) (value : String) (supported : Bool),
        (idInBuckets
            (registryStep (runRegistry ops)
              (RegistryOp.add scope value supported)).watchers.valueWatchers
            (runRegistry ops).watcherIdx ↔ supported = true)
        ∧ (idInBuckets
            (registryStep (runRegistry ops)
              (RegistryOp.add scope value supported)).watchers.allWatchers
            (runRegistry ops).watcherIdx ↔ supported = false))
    ∧ (∀ (nm : String) (opts : WatchOpts),
        ((inferTrigger (some nm) opts).2 = true ↔
          nm ∈ opts.indexFields ∧ requiresExactMatch opts nm ≠ none)
        ∧ (inferTrigger none opts).2 = false) := by
  obtain ⟨hA, hV, hX⟩ := runRegistry_wellFormed ops
  refine ⟨hX, ?_, ?_⟩
  · intro scope value supported
    have hfreshA : ¬ idInBuckets (runRegistry ops).watchers.allWatchers
        (runRegistry ops).watcherIdx := by
      intro h
      exact Nat.lt_irrefl _ (hA _ h)
    have hfreshV : ¬ idInBuckets (runRegistry ops).watchers.valueWatchers
        (runRegistry ops).watcherIdx := by
      intro h
      exact Nat.lt_irrefl _ (hV _ h)
    cases supported with
    | true =>
      constructor
      · simp only [registryStep, addWatcher, if_pos rfl]
        simp [idInBuckets_insert]
      · simp only [registryStep, addWatcher, if_pos rfl]
        simp [hfreshA]
    | false =>
      constructor
      · simp only [registryStep, addWatcher]
        simp [hfreshV]
      · simp only [registryStep, addWatcher]
        simp [idInBuckets_insert]
  · intro nm opts
    refine ⟨?_, rfl⟩
    unfold inferTrigger
    rw [inferTrigger_foldl_aux]
    simp

/-- The stop-relevant state of a Cacher: the stopped flag guarded by
stopLock, whether the readiness gate has been stopped, and whether stopCh
has been closed. -/
structure CacherLifecycle where
  stopped : Bool
  readyStopped : Bool
  stopChClosed : Bool
  deriving DecidableEq, Repr

/-- The externally visible actions one Stop call can perform. -/
inductive StopAction
  | stopReady
  | closeStopCh
  | waitBackground
  deriving DecidableEq, Repr

/-- Cacher.Stop, translated from cacher.go: under stopLock, a call that
observes the stopped flag returns immediately with no actions; otherwise it
sets the flag, stops the readiness gate, closes stopCh and waits for the
background tasks. -/
def cacherStop (s : CacherLifecycle) : CacherLifecycle × List StopAction :=
  if s.stopped then (s, [])
  else
    ({ stopped := true, readyStopped := true, stopChClosed := true },
     [StopAction.stopReady, StopAction.closeStopCh, StopAction.waitBackground])

/-- A sequence of n Stop calls, accumulating the actions performed. -/
def cacherStopN : Nat → CacherLifecycle → CacherLifecycle × List StopAction
  | 0, s => (s, [])
  | n + 1, s =>
    let r1 := cacherStop s
    let r2 := cacherStopN n r1.1
    (r2.1, r1.2 ++ r2.2)

theorem cacherStop_fst_stopped (s : CacherLifecycle) :
    (cacherStop s).1.stopped = true := by
  by_cases h : s.stopped = true <;> simp [cacherStop, h]

theorem cacherStopN_of_stopped (n : Nat) (s : CacherLifecycle)
    (h : s.stopped = true) : cacherStopN n s = (s, []) := by
  induction n with
  | zero => rfl
  | succ n ih => simp [cacherStopN, cacherStop, h, ih]

/-- C10: Stop is idempotent — any positive number of Stop calls has exactly
the state and the actions of a single call (later calls observe the stopped
flag and perform nothing), and over any such sequence starting from a fresh
cacher the stop channel is closed exactly once, so repeated Stop never
re-closes the channel (which would panic). -/
theorem claim10_stop_idempotent (n : Nat) (s : CacherLifecycle) :
    cacherStopN (n + 1) s = cacherStopN 1 s
    ∧ List.count StopAction.closeStopCh
        (cacherStopN (n + 1)
          { stopped := false, readyStopped := false, stopChClosed := false }).2 = 1 := by
  have hone : ∀ t : CacherLifecycle, cacherStopN (n + 1) t = ((cacherStop t).1, (cacherStop t).2) := by
    intro t
    have h2 := cacherStopN_of_stopped n (cacherStop t).1 (cacherStop_fst_stopped t)
    simp [cacherStopN, h2]
  constructor
  · rw [hone s]
    simp [cacherStopN, cacherStopN_of_stopped 0 (cacherStop s).1 (cacherStop_fst_stopped s)]
  · rw [hone]
    decide

/-- External collaborators of Cacher.Watch: the WatchList feature gate, the
versioner's parser, the readiness gate (waitAndReadGeneration at the gate
and checkAndReadGeneration under the cacher lock), the request-scope
information from the context, the backing store's current revision
(getCurrentResourceVersionFromStorage), the watch cache's current revision
and freshness wait, the two interval constructors (success or failure), the
configured trigger index name, and whether the bookmark queue accepts the
watcher (nextBookmarkTime yields a time). -/
structure WatchEnv where
  watchListEnabled : Bool
  parse : String → Option Nat
  gateGeneration : Option Nat
  requestNamespace : String
  requestName : String
  storageCurrentRV : Option Nat
  cacheRV : Nat
  freshWaitOk : Bool
  intervalFromStoreOk : Bool
  eventsSinceOk : Nat → Bool
  atLockGeneration : Nat
  atLockReady : Bool
  indexedTriggerName : Option String
  bookmarkAddOk : Bool

/-- The mutable cacher state that Watch registration touches: the watcher
registry, the watcherIdx counter, and the bookmark queue (flattened to the
list of queued watcher ids). -/
structure CacherRegState where
  watchers : IndexedWatchers
  watcherIdx : Nat
  bookmarkQueue : List Nat
  deriving DecidableEq, Repr

/-- What Cacher.Watch returns to its caller. -/
inductive WatchOutcome
  | delegated
  | goError
  | errorHandle
  | immediateClose
  | started (startRV : Nat) (forceAllEvents : Bool)
  deriving DecidableEq, Repr

/-- The channel of the watch.Interface returned for each outcome: the
buffered events and whether the channel is closed on return.  newErrWatcher
buffers one Error event and closes the channel; newImmediateCloseWatcher
returns an empty closed channel; a started watcher's channel is live.
Outcomes returned together with a Go error carry no handle. -/
def handleChannel : WatchOutcome → Option (List WatchEventType × Bool)
  | WatchOutcome.errorHandle => some ([WatchEventType.error], true)
  | WatchOutcome.immediateClose => some ([], true)
  | WatchOutcome.started _ _ => some ([], false)
  | _ => none

/-- getCommonResourceVersionLockedFunc, translated from cacher.go (the
storage fetch is performed eagerly when the function is built, which is the
possible failure): empty rv string asks the backing store for its current
revision; a parsed rv of 0 takes the watch cache's current revision;
otherwise the parsed rv itself. -/
def getCommonResourceVersion (parsedRV : Nat) (rvString : String)
    (storeRV : Option Nat) (cacheRV : Nat) : Option Nat :=
  if rvString = "" then storeRV
  else if parsedRV = 0 then some cacheRV
  else some parsedRV

/-- getStartResourceVersionForWatchLockedFunc, translated from cacher.go:
when SendInitialEvents is unset or true the watch starts at the requested
(parsed) rv; when it is false the common resolution applies. -/
def getStartResourceVersionForWatch (sendInitialEvents : Option Bool)
    (parsedRV : Nat) (rvString : String) (storeRV : Option Nat)
    (cacheRV : Nat) : Option Nat :=
  match sendInitialEvents with
  | some false => getCommonResourceVersion parsedRV rvString storeRV cacheRV
  | _ => some parsedRV

/-- getBookmarkAfterResourceVersionLockedFunc, translated from cacher.go:
a bookmark-after revision is only computed (via the common resolution, which
may query the backing store and fail) when SendInitialEvents is true and
watch bookmarks are allowed; otherwise it is 0. -/
def getBookmarkAfterRV (env : WatchEnv) (parsedRV : Nat) (opts : WatchOpts) :
    Option Nat :=
  match opts.sendInitialEvents with
  | some true =>
    if opts.allowWatchBookmarks then
      getCommonResourceVersion parsedRV opts.resourceVersion env.storageCurrentRV env.cacheRV
    else some 0
  | _ => some 0

/-- waitUntilWatchCacheFreshAndForceAllEvents, translated from cacher.go:
when SendInitialEvents is true, wait for watch-cache freshness at the
requested rv (failure propagates) and force all events from the store
snapshot; otherwise no wait and no forcing. -/
def waitFreshAndForceAllEvents (env : WatchEnv) (opts : WatchOpts) : Option Bool :=
  match opts.sendInitialEvents with
  | some true => if env.freshWaitOk then some true else none
  | _ => some false

/-- The scope inference in Cacher.Watch, translated from cacher.go: namespace
from the request context, else from an exact match on metadata.namespace;
name from the request info, else from an exact match on metadata.name. -/
def watchScope (env : WatchEnv) (opts : WatchOpts) : NamespacedName :=
  let nsv :=
    if env.requestNamespace ≠ "" then env.requestNamespace
    else
      match requiresExactMatch opts "metadata.namespace" with
      | some v => v
      | none => ""
  let nmv :=
    if env.requestName ≠ "" then env.requestName
    else
      match requiresExactMatch opts "metadata.name" with
      | some v => v
      | none => ""
  { nsp := nsv, name := nmv }

/-- The options Cacher.Watch actually uses: SendInitialEvents is cleared
when the WatchList feature gate is off. -/
def effectiveWatchOpts (env : WatchEnv) (opts0 : WatchOpts) : WatchOpts :=
  if env.watchListEnabled then opts0
  else { opts0 with sendInitialEvents := none }

/-- Cacher.Watch, translated from cacher.go: delegate to the backing store
when SendInitialEvents is unset and the rv string is empty; return parse and
readiness-gate failures as Go errors; afterwards, failures of the
bookmark-after computation, the start-revision computation, the freshness
wait or the interval computation are returned as an error-event watcher with
a nil Go error; under the cacher lock, a readiness generation that advanced
(or readiness lost) since the gate aborts registration with an
immediately-closed watcher and leaves the state untouched; otherwise the
watcher is registered under watcherIdx (and queued for bookmarks when the
client allows them and the queue accepts it) and the watch starts. -/
def cacherWatch (env : WatchEnv) (st : CacherRegState) (opts0 : WatchOpts) :
    WatchOutcome × CacherRegState :=
  let opts := effectiveWatchOpts env opts0
  if opts.sendInitialEvents = none ∧ opts.resourceVersion = "" then
    (WatchOutcome.delegated, st)
  else
    match env.parse opts.resourceVersion with
    | none => (WatchOutcome.goError, st)
    | some requestedWatchRV =>
      match env.gateGeneration with
      | none => (WatchOutcome.goError, st)
      | some readyGeneration =>
        let scope := watchScope env opts
        let tv := inferTrigger env.indexedTriggerName opts
        match getBookmarkAfterRV env requestedWatchRV opts with
        | none => (WatchOutcome.errorHandle, st)
        | some _ =>
          match getStartResourceVersionForWatch opts.sendInitialEvents
              requestedWatchRV opts.resourceVersion env.storageCurrentRV
              env.cacheRV with
          | none => (WatchOutcome.errorHandle, st)
          | some startWatchRV =>
            match waitFreshAndForceAllEvents env opts with
            | none => (WatchOutcome.errorHandle, st)
            | some forceAllEvents =>
              if (if forceAllEvents then env.intervalFromStoreOk
                  else env.eventsSinceOk startWatchRV) then
                if env.atLockGeneration = readyGeneration ∧ env.atLockReady then
                  (WatchOutcome.started startWatchRV forceAllEvents,
                   { watchers := addWatcher st.watchers st.watcherIdx scope tv.1 tv.2
                     watcherIdx := st.watcherIdx + 1
                     bookmarkQueue :=
                       if opts.allowWatchBookmarks ∧ env.bookmarkAddOk then
                         st.bookmarkQueue ++ [st.watcherIdx]
                       else st.bookmarkQueue })
                else (WatchOutcome.immediateClose, st)
              else (WatchOutcome.errorHandle, st)

/-- C8: start-revision resolution for an accepted watch: with
SendInitialEvents true, the watch starts at the requested rv; with
SendInitialEvents false, it starts at the backing store's current revision
when no rv string was supplied, at the current watch-cache revision when the
supplied rv parses to zero, and at the requested rv otherwise. -/
theorem claim8_start_rv (sie : Option Bool) (parsedRV : Nat) (rvString : String)
    (storeRV : Option Nat) (cacheRV : Nat) :
    (sie = some true →
      getStartResourceVersionForWatch sie parsedRV rvString storeRV cacheRV
        = some parsedRV)
    ∧ (sie = some false → rvString = "" →
      getStartResourceVersionForWatch sie parsedRV rvString storeRV cacheRV
        = storeRV)
    ∧ (sie = some false → rvString ≠ "" → parsedRV = 0 →
      getStartResourceVersionForWatch sie parsedRV rvString storeRV cacheRV
        = some cacheRV)
    ∧ (sie = some false → rvString ≠ "" → parsedRV ≠ 0 →
      getStartResourceVersionForWatch sie parsedRV rvString storeRV cacheRV
        = some parsedRV) := by
  refine ⟨?_, ?_, ?_, ?_⟩
  · intro h
    subst h
    simp [getStartResourceVersionForWatch]
  · intro h he
    subst h
    simp [getStartResourceVersionForWatch, getCommonResourceVersion, he]
  · intro h hne h0
    subst h
    simp [getStartResourceVersionForWatch, getCommonResourceVersion, hne, h0]
  · intro h hne h0
    subst h
    simp [getStartResourceVersionForWatch, getCommonResourceVersion, hne, h0]

/-- Witness for C8 at concrete inputs covering each branch. -/
theorem claim8_start_rv_witness :
    getStartResourceVersionForWatch (some true) 5 "5" (some 50) 40 = some 5
    ∧ getStartResourceVersionForWatch (some false) 0 "" (some 50) 40 = some 50
    ∧ getStartResourceVersionForWatch (some false) 0 "0" (some 50) 40 = some 40
    ∧ getStartResourceVersionForWatch (some false) 5 "5" (some 50) 40 = some 5 :=
  ⟨(claim8_start_rv (some true) 5 "5" (some 50) 40).1 rfl,
   (claim8_start_rv (some false) 0 "" (some 50) 40).2.1 rfl rfl,
   (claim8_start_rv (some false) 0 "0" (some 50) 40).2.2.1 rfl (by decide) rfl,
   (claim8_start_rv (some false) 5 "5" (some 50) 40).2.2.2 rfl (by decide) (by decide)⟩

/-- C6: once resource-version parsing and the readiness gate have been
passed (and the call is not the delegation case), any failure of the
bookmark-after computation, the start-revision computation, the freshness
wait, or the catch-up interval computation is returned as a watch handle
whose channel carries exactly one Error event and is then closed, with a nil
Go error — never as a returned error — and the cacher state is untouched. -/
theorem claim6_watch_error_event (env : WatchEnv) (st : CacherRegState)
    (opts0 : WatchOpts)
    (hnd : ¬ ((effectiveWatchOpts env opts0).sendInitialEvents = none
        ∧ (effectiveWatchOpts env opts0).resourceVersion = ""))
    (rv g : Nat)
    (hparse : env.parse (effectiveWatchOpts env opts0).resourceVersion = some rv)
    (hgate : env.gateGeneration = some g)
    (hfail :
      getBookmarkAfterRV env rv (effectiveWatchOpts env opts0) = none
      ∨ getStartResourceVersionForWatch
          (effectiveWatchOpts env opts0).sendInitialEvents rv
          (effectiveWatchOpts env opts0).resourceVersion env.storageCurrentRV
          env.cacheRV = none
      ∨ waitFreshAndForceAllEvents env (effectiveWatchOpts env opts0) = none
      ∨ (∃ (s : Nat) (f : Bool),
          getStartResourceVersionForWatch
            (effectiveWatchOpts env opts0).sendInitialEvents rv
            (effectiveWatchOpts env opts0).resourceVersion env.storageCurrentRV
            env.cacheRV = some s
          ∧ waitFreshAndForceAllEvents env (effectiveWatchOpts env opts0) = some f
          ∧ (if f then env.intervalFromStoreOk else env.eventsSinceOk s) = false)) :
    cacherWatch env st opts0 = (WatchOutcome.errorHandle, st)
    ∧ handleChannel (cacherWatch env st opts0).1
        = some ([WatchEventType.error], true) := by
  have hres : cacherWatch env st opts0 = (WatchOutcome.errorHandle, st) := by
    rcases hA : getBookmarkAfterRV env rv (effectiveWatchOpts env opts0) with _ | a
    · simp [cacherWatch, hnd, hparse, hgate, hA]
    · rcases hB : getStartResourceVersionForWatch
          (effectiveWatchOpts env opts0).sendInitialEvents rv
          (effectiveWatchOpts env opts0).resourceVersion env.storageCurrentRV
          env.cacheRV with _ | srv
      · simp [cacherWatch, hnd, hparse, hgate, hA, hB]
      · rcases hC : waitFreshAndForceAllEvents env (effectiveWatchOpts env opts0)
            with _ | fa
        · simp [cacherWatch, hnd, hparse, hgate, hA, hB, hC]
        · rcases hfail with h | h | h | ⟨s, f, hs, hf, hint⟩
          · rw [hA] at h
            simp at h
          · rw [hB] at h
            simp at h
          · rw [hC] at h
            simp at h
          · rw [hB] at hs
            injection hs with hs
            subst hs
            rw [hC] at hf
            injection hf with hf
            subst hf
            simp [cacherWatch, hnd, hparse, hgate, hA, hB, hC, hint]
  exact ⟨hres, by rw [hres]; rfl⟩

/-- Concrete Watch environment for the C6 witness: gate passed at
generation 3, catch-up interval computation fails. -/
def watchEnvErrW : WatchEnv :=
  { watchListEnabled := true
    parse := parseRVModel
    gateGeneration := some 3
    requestNamespace := ""
    requestName := ""
    storageCurrentRV := some 50
    cacheRV := 40
    freshWaitOk := true
    intervalFromStoreOk := true
    eventsSinceOk := fun _ => false
    atLockGeneration := 3
    atLockReady := true
    indexedTriggerName := none
    bookmarkAddOk := true }

/-- Concrete Watch options for the C6 and C7 witnesses. -/
def watchOptsW : WatchOpts :=
  { resourceVersion := "5"
    sendInitialEvents := none
    allowWatchBookmarks := false
    indexFields := []
    fieldExact := [] }

/-- A fresh cacher registration state. -/
def cacherRegStateW : CacherRegState :=
  { watchers := { allWatchers := [], valueWatchers := [] }
    watcherIdx := 0
    bookmarkQueue := [] }

/-- Witness for C6: a failing catch-up interval yields the error-event
handle with the state untouched. -/
theorem claim6_watch_error_event_witness :
    cacherWatch watchEnvErrW cacherRegStateW watchOptsW
      = (WatchOutcome.errorHandle, cacherRegStateW)
    ∧ handleChannel (cacherWatch watchEnvErrW cacherRegStateW watchOptsW).1
        = some ([WatchEventType.error], true) :=
  claim6_watch_error_event watchEnvErrW cacherRegStateW watchOptsW (by decide) 5 3
    (by decide) rfl
    (Or.inr (Or.inr (Or.inr ⟨5, false, rfl, rfl, rfl⟩)))

/-- C7: when, between passing the readiness gate and acquiring the cacher
lock, the readiness generation has advanced or readiness has been lost, the
watcher is never added to the registry or the bookmark queue (the state is
unchanged) and the caller receives a handle whose channel is empty and
already closed. -/
theorem claim7_generation_flip (env : WatchEnv) (st : CacherRegState)
    (opts0 : WatchOpts)
    (hnd : ¬ ((effectiveWatchOpts env opts0).sendInitialEvents = none
        ∧ (effectiveWatchOpts env opts0).resourceVersion = ""))
    (rv g : Nat)
    (hparse : env.parse (effectiveWatchOpts env opts0).resourceVersion = some rv)
    (hgate : env.gateGeneration = some g)
    (bk s : Nat) (f : Bool)
    (hA : getBookmarkAfterRV env rv (effectiveWatchOpts env opts0) = some bk)
    (hB : getStartResourceVersionForWatch
        (effectiveWatchOpts env opts0).sendInitialEvents rv
        (effectiveWatchOpts env opts0).resourceVersion env.storageCurrentRV
        env.cacheRV = some s)
    (hC : waitFreshAndForceAllEvents env (effectiveWatchOpts env opts0) = some f)
    (hint : (if f then env.intervalFromStoreOk else env.eventsSinceOk s) = true)
    (hflip : ¬ (env.atLockGeneration = g ∧ env.atLockReady = true)) :
    cacherWatch env st opts0 = (WatchOutcome.immediateClose, st)
    ∧ (cacherWatch env st opts0).2.watchers = st.watchers
    ∧ (cacherWatch env st opts0).2.bookmarkQueue = st.bookmarkQueue
    ∧ handleChannel (cacherWatch env st opts0).1 = some ([], true) := by
  have hres : cacherWatch env st opts0 = (WatchOutcome.immediateClose, st) := by
    simp [cacherWatch, hnd, hparse, hgate, hA, hB, hC, hint, hflip]
  exact ⟨hres, by rw [hres], by rw [hres], by rw [hres]; rfl⟩

/-- Concrete Watch environment for the C7 witness: gate passed at
generation 3 but generation 4 observed under the lock. -/
def watchEnvFlipW : WatchEnv :=
  { watchEnvErrW with
    atLockGeneration := 4
    eventsSinceOk := fun _ => true }

/-- Witness for C7: a generation flip yields the immediately-closed handle
and an unchanged registry and bookmark queue. -/
theorem claim7_generation_flip_witness :
    cacherWatch watchEnvFlipW cacherRegStateW watchOptsW
      = (WatchOutcome.immediateClose, cacherRegStateW)
    ∧ (cacherWatch watchEnvFlipW cacherRegStateW watchOptsW).2.watchers
        = cacherRegStateW.watchers
    ∧ (cacherWatch watchEnvFlipW cacherRegStateW watchOptsW).2.bookmarkQueue
        = cacherRegStateW.bookmarkQueue
    ∧ handleChannel (cacherWatch watchEnvFlipW cacherRegStateW watchOptsW).1
        = some ([], true) :=
  claim7_generation_flip watchEnvFlipW cacherRegStateW watchOptsW (by decide) 5 3
    (by decide) rfl 0 5 false rfl rfl rfl rfl (by decide)
